import Mathlib

/-!
Shallow embedding of the pyxtuml core (`xtuml/model.py`): the metamodel
registry, instance representation, association-result cache, ordered-set
container and navigation-chain evaluator, together with theorems checking
the natural-language specification against this code.

Python machine-level conventions used throughout the embedding:
* Python exceptions are modelled with `Except PyErr`.
* Python values reachable through the modelled operations are captured by
  the inductive type `Value`; floats are modelled as rationals (the code
  performs no float arithmetic, only construction of literals, exact
  conversions and equality tests), and the opaque unique identifiers
  produced by the pluggable id generator are modelled as naturals of a
  dedicated constructor (mirroring the default `uuid.UUID`, a type distinct
  from the numeric and string types).
* Instances are mutable aliased objects; the model threads an explicit
  `Model` state and refers to an instance by the pair
  (class kind, index in the per-class instance table).
-/

namespace PyXtuml

/-- Python exception kinds raised by the modelled fragment. -/
inductive PyErr where
  /-- `TypeError`, e.g. subscript assignment on a non-subscriptable object. -/
  | typeError
  /-- `KeyError(msg)`. -/
  | keyError (msg : String)
  /-- `AttributeError`. -/
  | attributeError
  /-- `ValueError`, e.g. failed string-to-number conversion. -/
  | valueError
  /-- `xtuml.model.ModelException(msg)`. -/
  | modelException (msg : String)
deriving DecidableEq, Repr

/-- A reference to a metamodel instance: its class kind and its index in
the order of creation of instances of that kind. Python compares
`BaseObject` instances by identity (no `__eq__` is defined on it), which
this pair captures. -/
abbrev InstRef := String × Nat

/-- Python values reachable through the modelled operations. -/
inductive Value where
  | vnone
  | vbool (b : Bool)
  | vint (n : Int)
  /-- A float, modelled as a rational (exact for every value the code builds). -/
  | vreal (q : ℚ)
  | vstr (s : String)
  /-- An opaque unique identifier from the id generator (a `uuid.UUID`-like
  type, distinct from every numeric and string type). -/
  | vid (n : Nat)
  /-- A reference to a metamodel instance (identity semantics). -/
  | vref (r : InstRef)
deriving DecidableEq, Repr

/-- Python `==` on the modelled values: numbers compare across the
numeric tower (`True == 1`, `1 == 1.0`), every other cross-type
comparison is `False`, `None == None` is `True`, instances compare by
identity. -/
def pyEq : Value → Value → Bool
  | .vnone, .vnone => true
  | .vbool a, .vbool b => a = b
  | .vbool a, .vint n => (if a then (1 : Int) else 0) = n
  | .vbool a, .vreal q => ((if a then (1 : Int) else 0) : ℚ) = q
  | .vint n, .vbool b => n = (if b then (1 : Int) else 0)
  | .vint n, .vint k => n = k
  | .vint n, .vreal q => (n : ℚ) = q
  | .vreal q, .vbool b => q = ((if b then (1 : Int) else 0) : ℚ)
  | .vreal q, .vint n => q = (n : ℚ)
  | .vreal q, .vreal p => q = p
  | .vstr a, .vstr b => a = b
  | .vid a, .vid b => a = b
  | .vref a, .vref b => a = b
  | _, _ => false

/-! ## The ordered-set container (`OrderedSet`, model.py lines 118-182)

The Python class keeps a doubly linked list of nodes plus a key map; the
observable state is the sequence of elements in insertion order, which the
embedding represents directly as a `List`. -/

namespace OrderedSet

/-- Embeds `OrderedSet.add` (model.py lines 135-139): append the key at the
tail if absent, otherwise do nothing. -/
def add [DecidableEq α] (s : List α) (key : α) : List α :=
  if key ∈ s then s else s ++ [key]

/-- Embeds `OrderedSet.discard` (model.py lines 141-145). When the key is
present, the source pops its node with
`key, prev, next_ = self.map.pop(key)` and relinks with `prev[2] = next_`
followed by `next[1] = prev`; the second statement subscripts `next`,
which is the Python builtin function (the unpacked variable was renamed to
`next_`), so CPython raises `TypeError` before the method can return.
When the key is absent the `if` falls through and the method returns
normally without touching the set. -/
def discard [DecidableEq α] (s : List α) (key : α) : Except PyErr (List α) :=
  if key ∈ s then .error .typeError else .ok s

/-- Embeds `OrderedSet.pop` (model.py lines 161-171): on an empty set raise
`KeyError`; otherwise pick the last (`self.end[1][0]`) or first
(`self.end[2][0]`) element according to `last`, call `discard` on it and
return it. `discard` raises `TypeError` on every present key, so the
return statement is never reached on a non-empty set. -/
def pop [DecidableEq α] (s : List α) (last : Bool) : Except PyErr (α × List α) :=
  match s with
  | [] => .error (.keyError "set is empty")
  | x :: xs =>
    let key := if last then (x :: xs).getLast (by simp) else x
    match discard (x :: xs) key with
    | .error e => .error e
    | .ok s2 => .ok (key, s2)

end OrderedSet

/-! ## The metamodel state

`MetaModel` (model.py lines 254-268) owns `classes` / `param_names` /
`param_types` (merged here into one class-descriptor table), `instances`
(per-kind instance tables, a kind is present only once an instance of it
has been created), the per-class association-result caches (the `__c__`
dict attached to each generated class by `define_class`), and the id
generator state (`IdGenerator`, model.py lines 233-251: `next()` returns
the current value and advances; modelled as a counter producing distinct
opaque identifiers). -/

/-- An instance attribute dictionary (`inst.__dict__`): exact-case keys in
insertion order, no duplicate keys (dict semantics). -/
abbrev AttrMap := List (String × Value)

/-- The declared schema of a class: `param_names` and `param_types` in
declaration order (model.py lines 273-274). -/
structure ClassDef where
  pnames : List String
  ptypes : List String
deriving DecidableEq, Repr

/-- One per-class association-result cache (`__c__`): a dict from a
join-key (a frozenset of (attribute name, value) pairs, kept here as the
pair list it was built from) to the cached query result set. -/
abbrev Cache := List (List (String × Value) × List InstRef)

instance : DecidableEq Cache := inferInstance

instance : DecidableEq (List (String × Cache)) := inferInstance

/-- The whole mutable state of a `MetaModel` and of the class objects it
generates. -/
structure Model where
  classes : List (String × ClassDef)
  insts : List (String × List AttrMap)
  caches : List (String × Cache)
  nextId : Nat
  ignoreUndefined : Bool
deriving DecidableEq, Repr

/-- Lookup in a string-keyed association list (Python dict read). -/
def lookupStr (l : List (String × α)) (k : String) : Option α :=
  match l with
  | [] => none
  | (k0, v0) :: rest => if k0 = k then some v0 else lookupStr rest k

/-- Write into a string-keyed association list (Python dict write):
replace the value in place if the key is present, else append. -/
def insertStr (l : List (String × α)) (k : String) (v : α) : List (String × α) :=
  match l with
  | [] => [(k, v)]
  | (k0, v0) :: rest => if k0 = k then (k0, v) :: rest else (k0, v0) :: insertStr rest k v

/-- `dict.update` / repeated dict writes: fold `insertStr` left to right. -/
def insertAllStr (l : List (String × α)) (upd : List (String × α)) : List (String × α) :=
  match upd with
  | [] => l
  | (k, v) :: rest => insertAllStr (insertStr l k v) rest

/-- The attribute dictionary of the instance `r` refers to, when `r` is a
live reference. -/
def instAttrs (m : Model) (r : InstRef) : Option AttrMap :=
  match lookupStr m.insts r.1 with
  | none => none
  | some tbl => tbl[r.2]?

/-- The association-result cache of a class (`Cls.__c__`); an undefined
class reads as an empty cache. -/
def cacheOf (m : Model) (kind : String) : Cache :=
  (lookupStr m.caches kind).getD []

/-- `Cls.__c__.clear()`: empty the cache of one class, leaving every other
class's cache alone. -/
def clearCache (m : Model) (kind : String) : Model :=
  { m with caches := insertStr m.caches kind [] }

/-- Python `str.lower()` restricted to ASCII letters (attribute and class
names in the modelled fragment are ASCII; non-ASCII characters pass
through unchanged). -/
def charLower (c : Char) : Char :=
  if 65 ≤ c.toNat ∧ c.toNat ≤ 90 then Char.ofNat (c.toNat + 32) else c

/-- Lowercase a string, ASCII-wise, as `name.lower()` does on the names the
code handles. -/
def pyLower (s : String) : String := String.mk (s.data.map charLower)

/-- Python `str.upper()` restricted to ASCII letters. -/
def charUpper (c : Char) : Char :=
  if 97 ≤ c.toNat ∧ c.toNat ≤ 122 then Char.ofNat (c.toNat - 32) else c

/-- Uppercase a string, ASCII-wise, as `cardinality.upper()` does on the
cardinality codes. -/
def pyUpper (s : String) : String := String.mk (s.data.map charUpper)

/-! ## Instance attribute access (`BaseObject`, model.py lines 197-230) -/

/-- Case-insensitive attribute resolution used by `BaseObject.__getattr__`
(model.py lines 213-219): scan the instance dictionary for the first key
whose lowercase form matches the lowercase name. Python calls
`__getattr__` only after normal (exact-key) lookup fails, so the embedded
read below tries the exact key first. The fall-through
`object.__getattribute__(self, name)` raises `AttributeError` for any name
that is not a class-level attribute; class-level names (`__q__`, dunder
methods, ...) never collide with the attribute names quantified over
here. -/
def getattrA (attrs : AttrMap) (name : String) : Except PyErr Value :=
  match lookupStr attrs name with
  | some v => .ok v
  | none =>
    match attrs.find? (fun kv => pyLower kv.1 = pyLower name) with
    | some kv => .ok kv.2
    | none => .error .attributeError

/-- `getattr(inst, name)` on a live instance reference. -/
def getattrOp (m : Model) (r : InstRef) (name : String) : Except PyErr Value :=
  match instAttrs m r with
  | none => .error .attributeError
  | some attrs => getattrA attrs name

/-- The scan-and-write loop of `BaseObject.__setattr__` (model.py lines
221-227): walk the instance dictionary keys in order, write the value into
the first slot whose lowercase key equals the (lowercased) name; `none`
when no slot matches. -/
def setFirstCi (attrs : AttrMap) (lname : String) (v : Value) : Option AttrMap :=
  match attrs with
  | [] => none
  | (k0, v0) :: rest =>
    if pyLower k0 = lname then some ((k0, v) :: rest)
    else
      match setFirstCi rest lname v with
      | some rest2 => some ((k0, v0) :: rest2)
      | none => none

/-- Embeds `BaseObject.__setattr__` (model.py lines 221-227): lowercase the
name, write into the first case-insensitively matching slot and clear the
class's association-result cache (`self.__c__.clear()`); if no slot
matches, fall off the loop and return with nothing changed. The method
never raises. -/
def setattrOp (m : Model) (r : InstRef) (name : String) (v : Value) : Model :=
  match lookupStr m.insts r.1 with
  | none => m
  | some tbl =>
    match tbl[r.2]? with
    | none => m
    | some attrs =>
      match setFirstCi attrs (pyLower name) v with
      | none => m
      | some attrs2 =>
        let m2 := { m with insts := insertStr m.insts r.1 (tbl.set r.2 attrs2) }
        clearCache m2 r.1

/-! ## Types, defaults and coercion (model.py lines 278-321) -/

/-- The python types the metamodel maps type names to (`named_type`,
model.py lines 304-321): `bool`, `int`, `float`, `str`, `BaseObject`,
`QuerySet` and the type of the values the id generator produces
(`uuid.UUID` under the default generator, a type of its own). -/
inductive PyType where
  | pbool | pint | pfloat | pstr | pBaseObject | pQuerySet | pUUID
deriving DecidableEq, Repr

/-- Embeds `MetaModel.named_type` (model.py lines 304-321). -/
def named_type (name : String) : Except PyErr PyType :=
  if name = "boolean" then .ok .pbool
  else if name = "integer" then .ok .pint
  else if name = "real" then .ok .pfloat
  else if name = "string" then .ok .pstr
  else if name = "inst_ref" then .ok .pBaseObject
  else if name = "inst_ref_set" then .ok .pQuerySet
  else if name = "unique_id" then .ok .pUUID
  else .error (.modelException ("Unknown type named " ++ name))

/-- Python `isinstance` on the modelled values. `bool` is a subclass of
`int`, so booleans are instances of both; nothing else cross-classifies.
The modelled value universe contains no `QuerySet` values, so no value is
an instance of `QuerySet`. -/
def pyIsInstance (v : Value) (t : PyType) : Bool :=
  match v, t with
  | .vbool _, .pbool => true
  | .vbool _, .pint => true
  | .vint _, .pint => true
  | .vreal _, .pfloat => true
  | .vstr _, .pstr => true
  | .vid _, .pUUID => true
  | .vref _, .pBaseObject => true
  | _, _ => false

/-- Python truthiness of the modelled values (`bool(v)`). `uuid.UUID` and
`BaseObject` define neither `__bool__` nor `__len__`, so they are truthy. -/
def pyTruthy : Value → Bool
  | .vnone => false
  | .vbool b => b
  | .vint n => n ≠ 0
  | .vreal q => q ≠ 0
  | .vstr s => s ≠ ""
  | .vid _ => true
  | .vref _ => true

/-- `int(s)` on a string: optional surrounding whitespace, optional sign,
one or more ASCII digits; otherwise `ValueError`. (Underscore separators
and non-ASCII digits are outside the modelled fragment.) -/
def parsePyInt (s : String) : Except PyErr Int :=
  let t := s.trim
  let core := if t.startsWith "-" ∨ t.startsWith "+" then t.drop 1 else t
  if core.length > 0 ∧ core.all Char.isDigit then
    let n : Nat := core.foldl (fun acc c => acc * 10 + (c.toNat - 48)) 0
    .ok (if t.startsWith "-" then -(n : Int) else (n : Int))
  else .error .valueError

/-- `float(s)` on a string: optional whitespace and sign, digits with an
optional fractional part; otherwise `ValueError`. (Exponent forms,
`inf`/`nan` are outside the modelled fragment.) -/
def parsePyFloat (s : String) : Except PyErr ℚ :=
  let t := s.trim
  let core := if t.startsWith "-" ∨ t.startsWith "+" then t.drop 1 else t
  let parts := core.splitOn "."
  let digitsToNat : String → Nat := fun d => d.foldl (fun acc c => acc * 10 + (c.toNat - 48)) 0
  let signed : ℚ → ℚ := fun q => if t.startsWith "-" then -q else q
  match parts with
  | [ip] =>
    if ip.length > 0 ∧ ip.all Char.isDigit then .ok (signed (digitsToNat ip))
    else .error .valueError
  | [ip, fp] =>
    if (ip.length > 0 ∨ fp.length > 0) ∧ ip.all Char.isDigit ∧ fp.all Char.isDigit then
      .ok (signed ((digitsToNat ip : ℚ) + (digitsToNat fp : ℚ) / ((10 : ℚ) ^ fp.length)))
    else .error .valueError
  | _ => .error .valueError

/-- `int(x)` truncation of a float toward zero. -/
def ratTrunc (q : ℚ) : Int :=
  if 0 ≤ q then ⌊q⌋ else -⌊-q⌋

/-- Python constructor call `Type(value)`, as performed by `MetaModel.new`
on a positional argument that is not already an instance of the declared
type (model.py lines 342-344). String rendering of floats, identifiers and
instances (`str(x)`) depends on float repr / uuid formatting / object
addresses and is outside the modelled fragment, as are `uuid.UUID(x)` and
iterable-consuming `QuerySet(x)` constructions; `BaseObject(value)` always
raises `TypeError` (its `__init__` takes no argument). -/
def pyCast (t : PyType) (v : Value) : Except PyErr Value :=
  match t with
  | .pbool => .ok (.vbool (pyTruthy v))
  | .pint =>
    match v with
    | .vbool b => .ok (.vint (if b then 1 else 0))
    | .vint n => .ok (.vint n)
    | .vreal q => .ok (.vint (ratTrunc q))
    | .vstr s => (parsePyInt s).map Value.vint
    | .vid n => .ok (.vint n)
    | _ => .error .typeError
  | .pfloat =>
    match v with
    | .vbool b => .ok (.vreal (if b then 1 else 0))
    | .vint n => .ok (.vreal n)
    | .vreal q => .ok (.vreal q)
    | .vstr s => (parsePyFloat s).map Value.vreal
    | _ => .error .typeError
  | .pstr =>
    match v with
    | .vnone => .ok (.vstr "None")
    | .vbool b => .ok (.vstr (if b then "True" else "False"))
    | .vint n => .ok (.vstr (toString n))
    | .vstr s => .ok (.vstr s)
    | _ => .error .typeError
  | .pBaseObject => .error .typeError
  | .pQuerySet => .error .typeError
  | .pUUID => .error .typeError

/-- The coercion `MetaModel.new` applies to one positional argument
(model.py lines 341-344): look up the declared python type, keep the value
if it is already an instance of it, otherwise call the type on it. -/
def pyCoerce (tyName : String) (v : Value) : Except PyErr Value :=
  match named_type tyName with
  | .error e => .error e
  | .ok t => if pyIsInstance v t then .ok v else pyCast t v

/-- Embeds `MetaModel.default_value` (model.py lines 278-288), including
the duplicated `integer` branch of the source; `unique_id` consumes the
next value of the id generator; any other name — including `inst_ref` and
`inst_ref_set` — raises `ModelException`. -/
def default_value (m : Model) (tyName : String) : Except PyErr (Value × Model) :=
  if tyName = "boolean" then .ok (.vbool false, m)
  else if tyName = "integer" then .ok (.vint 0, m)
  else if tyName = "integer" then .ok (.vint 0, m)
  else if tyName = "real" then .ok (.vreal 0, m)
  else if tyName = "string" then .ok (.vstr "", m)
  else if tyName = "unique_id" then .ok (.vid m.nextId, { m with nextId := m.nextId + 1 })
  else .error (.modelException ("Unknown type named " ++ tyName))

/-! ## Class definition and instance creation (model.py lines 270-276 and 323-356) -/

/-- Embeds `MetaModel.define_class` (model.py lines 270-276): record the
schema under the kind and attach a fresh empty association-result cache
(`__c__ = dict()`) to the generated class. -/
def define_class (m : Model) (kind : String) (attributes : List (String × String)) : Model :=
  { m with
      classes := insertStr m.classes kind ⟨attributes.map Prod.fst, attributes.map Prod.snd⟩,
      caches := insertStr m.caches kind [] }

/-- The default-filling loop of `MetaModel.new` (model.py lines 337-338):
`for key, ty in zip(param_names, param_types): inst.__dict__[key] = default_value(ty)`,
threading the id-generator state. -/
def buildDefaults (m : Model) (pairs : List (String × String)) (acc : AttrMap) :
    Except PyErr (AttrMap × Model) :=
  match pairs with
  | [] => .ok (acc, m)
  | (k, ty) :: rest =>
    match default_value m ty with
    | .error e => .error e
    | .ok (v, m2) => buildDefaults m2 rest (insertStr acc k v)

/-- The positional-argument loop of `MetaModel.new` (model.py lines
340-346): `zip(param_names, param_types, args)` truncates at the shortest
of the three lists; each value is coerced into the declared type when it
is not already an instance of it, then written into the dict slot. -/
def applyPositional (attrs : AttrMap) (trips : List ((String × String) × Value)) :
    Except PyErr AttrMap :=
  match trips with
  | [] => .ok attrs
  | ((name, ty), v) :: rest =>
    match pyCoerce ty v with
    | .error e => .error e
    | .ok w => applyPositional (insertStr attrs name w) rest

/-- Embeds `MetaModel.new` (model.py lines 323-356): reject (or, under
`ignore_undefined_classes`, silently return `None` for) an unknown class;
construct the instance — `BaseObject.__init__` clears the class's
association-result cache — fill every declared attribute with its type
default, overwrite with the coerced positional arguments in declaration
order, apply the named arguments verbatim via `inst.__dict__.update(kwargs)`,
and append the instance to the class's instance table (creating the table
on first use). -/
def newOp (m : Model) (kind : String) (args : List Value) (kwargs : List (String × Value)) :
    Except PyErr (Option InstRef × Model) :=
  match lookupStr m.classes kind with
  | none =>
    if m.ignoreUndefined then .ok (none, m)
    else .error (.modelException ("Unknown class " ++ kind))
  | some cd =>
    let m1 := clearCache m kind
    match buildDefaults m1 (cd.pnames.zip cd.ptypes) [] with
    | .error e => .error e
    | .ok (attrs1, m2) =>
      match applyPositional attrs1 ((cd.pnames.zip cd.ptypes).zip args) with
      | .error e => .error e
      | .ok attrs2 =>
        let attrs3 := insertAllStr attrs2 kwargs
        let prev := (lookupStr m2.insts kind).getD []
        let r : InstRef := (kind, prev.length)
        .ok (some r, { m2 with insts := insertStr m2.insts kind (prev ++ [attrs3]) })

/-! ## Association links and join evaluation (model.py lines 85-115 and 429-453) -/

/-- One direction of an association (`AssociationLink`, model.py lines
85-99): peer class kind, cardinality code, join-attribute names, phrase. -/
structure AssociationLink where
  kind : String
  cardinality : String
  ids : List String
  phrase : String
deriving DecidableEq, Repr

/-- `AssociationLink.is_many`: the upper-cased cardinality is `M` or `MC`. -/
def AssociationLink.is_many (l : AssociationLink) : Bool :=
  pyUpper l.cardinality == "M" || pyUpper l.cardinality == "MC"

/-- `SingleAssociationLink` (model.py lines 102-107): cardinality `1C`
when conditional, else `1`. -/
def singleAssociationLink (kind : String) (conditional : Bool) (ids : List String)
    (phrase : String) : AssociationLink :=
  ⟨kind, if conditional then "1C" else "1", ids, phrase⟩

/-- `ManyAssociationLink` (model.py lines 110-115): cardinality `MC`
when conditional, else `M`. -/
def manyAssociationLink (kind : String) (conditional : Bool) (ids : List String)
    (phrase : String) : AssociationLink :=
  ⟨kind, if conditional then "MC" else "M", ids, phrase⟩

/-- Equality of two (name, value) tuples as Python compares the elements
of a frozenset of dict items. -/
def pairEq (a b : String × Value) : Bool :=
  a.1 == b.1 && pyEq a.2 b.2

/-- Equality of two join-keys: `frozenset` equality is set equality of the
item tuples. -/
def keySetEq (a b : List (String × Value)) : Bool :=
  a.all (fun p => b.any (pairEq p)) && b.all (fun p => a.any (pairEq p))

/-- Lookup in a class cache dict whose keys are frozensets of items. -/
def cacheFind (c : Cache) (k : List (String × Value)) : Option (List InstRef) :=
  match c with
  | [] => none
  | (k0, qs) :: rest => if keySetEq k0 k then some qs else cacheFind rest k

/-- The inner loop of `MetaModel._query` (model.py lines 431-435): compare
`getattr(inst, name)` with the wanted value for each pair, breaking out
(and skipping the instance) at the first mismatch. -/
def matchInst (attrs : AttrMap) (pairs : List (String × Value)) : Except PyErr Bool :=
  match pairs with
  | [] => .ok true
  | (n, v) :: rest =>
    match getattrA attrs n with
    | .error e => .error e
    | .ok w => if pyEq w v then matchInst attrs rest else .ok false

/-- Embeds `MetaModel._query` (model.py lines 429-437): scan the instance
table in insertion order, yield each instance matching every pair, and
stop after the first yield when `many` is false. `idx` is the index of the
first table entry, so the yielded references name positions in the
original table. -/
def queryScan (kind : String) (tbl : List AttrMap) (idx : Nat) (many : Bool)
    (pairs : List (String × Value)) : Except PyErr (List InstRef) :=
  match tbl with
  | [] => .ok []
  | a :: rest =>
    match matchInst a pairs with
    | .error e => .error e
    | .ok true =>
      if many then
        match queryScan kind rest (idx + 1) many pairs with
        | .error e => .error e
        | .ok tail => .ok ((kind, idx) :: tail)
      else .ok [(kind, idx)]
    | .ok false => queryScan kind rest (idx + 1) many pairs

/-- `QuerySet(iterable)`: an `OrderedSet` built by adding the elements
left to right, keeping the first occurrence of each. -/
def querySetOf (l : List InstRef) : List InstRef :=
  l.foldl OrderedSet.add []

/-- The list comprehension `[getattr(inst, name) for name in source.ids]`
(model.py line 444), evaluated eagerly for all names. -/
def getAll (m : Model) (r : InstRef) (names : List String) : Except PyErr (List Value) :=
  match names with
  | [] => .ok []
  | n :: rest =>
    match getattrOp m r n with
    | .error e => .error e
    | .ok v =>
      match getAll m r rest with
      | .error e => .error e
      | .ok vs => .ok (v :: vs)

/-- Embeds `MetaModel._select_endpoint` (model.py lines 439-453): return a
fresh empty query set when the target kind has no instance table; else
build the join dict with `dict(zip(target.ids ++ kwarg names, source
values ++ kwarg values))` (`zip` truncates at the shorter side), use the
frozenset of its items as cache key in the target class's cache, scan and
memoize on a miss, and return the cached entry. -/
def selectEndpoint (m : Model) (r : InstRef) (source target : AssociationLink)
    (kwargs : List (String × Value)) : Except PyErr (List InstRef × Model) :=
  match lookupStr m.insts target.kind with
  | none => .ok ([], m)
  | some tbl =>
    match getAll m r source.ids with
    | .error e => .error e
    | .ok vals =>
      let joint := insertAllStr []
        ((target.ids ++ kwargs.map Prod.fst).zip (vals ++ kwargs.map Prod.snd))
      match cacheFind (cacheOf m target.kind) joint with
      | some qs => .ok (qs, m)
      | none =>
        match queryScan target.kind tbl 0 target.is_many joint with
        | .error e => .error e
        | .ok res =>
          let qs := querySetOf res
          .ok (qs,
            { m with caches :=
                insertStr m.caches target.kind (cacheOf m target.kind ++ [(joint, qs)]) })

/-! ## The navigation chain (`NavChain`, model.py lines 23-82) -/

/-- What a navigation chain can be started from: `None`, a single
instance, a query set, or a value of any other Python type. -/
inductive NavStart where
  | hnone
  | hinst (r : InstRef)
  | hset (l : List InstRef)
  | hother
deriving DecidableEq, Repr

/-- The state of a navigation chain: the bound set and the intent flag
fixed at construction. -/
structure NavChain where
  handle : List InstRef
  is_many : Bool
deriving DecidableEq, Repr

/-- Embeds `NavChain.__init__` (model.py lines 25-39): `None` binds the
empty set, an instance binds a singleton, a query set binds itself, and
anything else raises `ModelException`. -/
def navChainInit (handle : NavStart) (is_many : Bool) : Except PyErr NavChain :=
  match handle with
  | .hnone => .ok ⟨[], is_many⟩
  | .hinst r => .ok ⟨[r], is_many⟩
  | .hset l => .ok ⟨l, is_many⟩
  | .hother => .error (.modelException "Unable to navigate instances of this type")

/-- `navigate_any(inst)` (model.py lines 77-78). -/
def navigate_any (handle : NavStart) : Except PyErr NavChain :=
  navChainInit handle false

/-- `navigate_one(inst)` (model.py lines 73-74) delegates to `navigate_any`. -/
def navigate_one (handle : NavStart) : Except PyErr NavChain :=
  navigate_any handle

/-- `navigate_many(inst)` (model.py lines 81-82). -/
def navigate_many (handle : NavStart) : Except PyErr NavChain :=
  navChainInit handle true

/-- The result of terminal evaluation: a query set under `many` intent, an
optional single instance under `one` intent. -/
inductive NavResult where
  | many (l : List InstRef)
  | one (r : Option InstRef)
deriving DecidableEq, Repr

/-- Embeds `NavChain.__call__` (model.py lines 65-70):
`filter(where_clause, handle)` — with `where_clause = None` Python keeps
the truthy elements, and `BaseObject` instances are always truthy — then
either wrap the survivors in a `QuerySet` (`is_many`) or take
`next(s, None)`. -/
def NavChain.call (c : NavChain) (pred : Option (InstRef → Bool)) : NavResult :=
  let s := match pred with
    | some p => c.handle.filter p
    | none => c.handle.filter (fun _ => true)
  if c.is_many then .many (querySetOf s) else .one s.head?

/-! ## Claim-side definitions

Functions written from the specification wording, to be compared with the
embedded code. -/

/-- The per-type default value as the specification words it: boolean →
false, integer → 0, real → 0.0, string → empty string, unique_id → next
identity value. -/
def claimDefault (ty : String) (fresh : Nat) : Value :=
  if ty = "boolean" then .vbool false
  else if ty = "integer" then .vint 0
  else if ty = "real" then .vreal 0
  else if ty = "string" then .vstr ""
  else .vid fresh

/-- The attribute dictionary the specification describes for a fresh
instance: every declared attribute mapped to its type default in
declaration order, identity values drawn in order from the id source. -/
def defaultsSpec : List String → List String → Nat → AttrMap
  | n :: ns, t :: ts, fresh =>
    (n, claimDefault t fresh) :: defaultsSpec ns ts (if t = "unique_id" then fresh + 1 else fresh)
  | _, _, _ => []

/-- Modelled from the claim wording of C2: scan the target instance table
in insertion order, keep every instance matching all join-key pairs, and
stop at the first kept instance when the link cardinality is not many. -/
def queryScanSpec (kind : String) (tbl : List AttrMap) (idx : Nat) (many : Bool)
    (pairs : List (String × Value)) : Except PyErr (List InstRef) :=
  match tbl with
  | [] => .ok []
  | a :: rest =>
    match matchInst a pairs with
    | .error e => .error e
    | .ok true =>
      if many then
        match queryScanSpec kind rest (idx + 1) many pairs with
        | .error e => .error e
        | .ok tail => .ok ((kind, idx) :: tail)
      else .ok [(kind, idx)]
    | .ok false => queryScanSpec kind rest (idx + 1) many pairs

/-- Modelled from the claim wording of C2: build the join-key from the
target's join attributes paired with the source instance's corresponding
values plus the extra filter keywords; on a cache hit return the cached
result set unchanged; otherwise scan the target instance table, store the
resulting set under the join-key and return it. -/
def selectEndpointSpec (m : Model) (r : InstRef) (source target : AssociationLink)
    (kwargs : List (String × Value)) : Except PyErr (List InstRef × Model) :=
  match getAll m r source.ids with
  | .error e => .error e
  | .ok vals =>
    let joint := insertAllStr [] (target.ids.zip vals ++ kwargs)
    match cacheFind (cacheOf m target.kind) joint with
    | some qs => .ok (qs, m)
    | none =>
      match queryScanSpec target.kind ((lookupStr m.insts target.kind).getD []) 0
          target.is_many joint with
      | .error e => .error e
      | .ok res =>
        let qs := querySetOf res
        .ok (qs,
          { m with caches :=
              insertStr m.caches target.kind (cacheOf m target.kind ++ [(joint, qs)]) })

/-! ## Concrete fixtures used by witnesses and counterexamples -/

/-- A freshly constructed `MetaModel()`. -/
def emptyModel : Model := ⟨[], [], [], 0, false⟩

/-- `define_class("Person", [("name","string"),("age","integer")])`. -/
def personModel : Model :=
  define_class emptyModel "Person" [("name", "string"), ("age", "integer")]

/-- The model state after `new("Person", "Alice", 30)`. -/
def personAlice : Model :=
  match newOp personModel "Person" [.vstr "Alice", .vint 30] [] with
  | .ok p => p.2
  | .error _ => personModel

/-- The model state after `new("Person", name="Bob")`. -/
def personBob : Model :=
  match newOp personModel "Person" [] [("name", .vstr "Bob")] with
  | .ok p => p.2
  | .error _ => personModel

/-- The model state after `new("Person", Name="Bob")` — the named argument
spelt with a capital letter. -/
def personKwCased : Model :=
  match newOp personModel "Person" [] [("Name", .vstr "Bob")] with
  | .ok p => p.2
  | .error _ => personModel

/-- A class whose single attribute has the declared type `inst_ref`. -/
def instRefModel : Model := define_class emptyModel "R" [("other", "inst_ref")]

/-- A class with one attribute of each of the five instantiable types. -/
def fiveModel : Model :=
  define_class emptyModel "F"
    [("b", "boolean"), ("i", "integer"), ("r", "real"), ("s", "string"), ("u", "unique_id")]

/-- Two classes `A` and `B` joined on attribute `x`. -/
def abModel : Model :=
  define_class (define_class emptyModel "A" [("x", "integer")]) "B" [("x", "integer")]

/-- `abModel` after `new("A", 1)`: an `A` instance exists but no `B`
instance table does. -/
def abWithA : Model :=
  match newOp abModel "A" [.vint 1] [] with
  | .ok p => p.2
  | .error _ => abModel

/-- `abWithA` after `new("B", 2)` and `new("B", 1)`: the second `B`
instance joins the `A` instance on `x = 1`. -/
def abFull : Model :=
  match newOp abWithA "B" [.vint 2] [] with
  | .ok p =>
    match newOp p.2 "B" [.vint 1] [] with
    | .ok q => q.2
    | .error _ => p.2
  | .error _ => abWithA

/-- `abFull` after `new("A", 5)`: a second `A` instance matching no `B`. -/
def abExtra : Model :=
  match newOp abFull "A" [.vint 5] [] with
  | .ok p => p.2
  | .error _ => abFull

/-- The `A`-side association end, joining on `x`, cardinality `1`. -/
def endA : AssociationLink := singleAssociationLink "A" false ["x"] ""

/-- The `B`-side association end, joining on `x`, cardinality `MC`. -/
def endB : AssociationLink := manyAssociationLink "B" true ["x"] ""

/-- The `B`-side association end with cardinality `1C`. -/
def endB1C : AssociationLink := singleAssociationLink "B" true ["x"] ""

/-- `abFull` after navigating `A(0)` to `B` across the `x` join: the `B`
cache now holds one memoized result set. -/
def abCached : Model :=
  match selectEndpoint abFull ("A", 0) endA endB [] with
  | .ok p => p.2
  | .error _ => abFull

/-- The result of `new("B")` on `abCached`. -/
def abNewB : Option InstRef × Model :=
  match newOp abCached "B" [] [] with
  | .ok p => p
  | .error _ => (none, abCached)

/-- A class whose single attribute has declared type `real`, used to
exhibit positional coercion. -/
def coerceModel : Model := define_class emptyModel "C" [("val", "real")]

/-- The result of `new("C", 3)` on `coerceModel`: an integer positional
argument for the declared real attribute. -/
def coerceNewC : Option InstRef × Model :=
  match newOp coerceModel "C" [.vint 3] [] with
  | .ok p => p
  | .error _ => (none, coerceModel)

/-- The result of `new("C", val=3)` on `coerceModel`: the same integer
passed as a named argument instead. -/
def coerceNamedC : Option InstRef × Model :=
  match newOp coerceModel "C" [] [("val", .vint 3)] with
  | .ok p => p
  | .error _ => (none, coerceModel)

/-- The model state after `new("Person", "Al", 7, 9, "zz")` — two surplus
positional arguments. -/
def personExtra : Model :=
  match newOp personModel "Person" [.vstr "Al", .vint 7, .vint 9, .vstr "zz"] [] with
  | .ok p => p.2
  | .error _ => personModel

/-! ## Helper lemmas about the dictionary operations -/

instance [DecidableEq ε] [DecidableEq α] : DecidableEq (Except ε α) := fun a b =>
  match a, b with
  | .error e1, .error e2 =>
    if h : e1 = e2 then .isTrue (by rw [h]) else .isFalse (by simp [h])
  | .ok v1, .ok v2 =>
    if h : v1 = v2 then .isTrue (by rw [h]) else .isFalse (by simp [h])
  | .error _, .ok _ => .isFalse (by simp)
  | .ok _, .error _ => .isFalse (by simp)

theorem lookupStr_insertStr_self (l : List (String × α)) (k : String) (v : α) :
    lookupStr (insertStr l k v) k = some v := by
  induction l with
  | nil => simp [insertStr, lookupStr]
  | cons p rest ih =>
    obtain ⟨k0, v0⟩ := p
    by_cases h : k0 = k
    · simp [insertStr, lookupStr, h]
    · simp [insertStr, lookupStr, h, ih]

theorem lookupStr_insertStr_ne (l : List (String × α)) (k n : String) (v : α)
    (h : k ≠ n) : lookupStr (insertStr l k v) n = lookupStr l n := by
  induction l with
  | nil =>
    have hkn : ¬(k = n) := h
    simp [insertStr, lookupStr, hkn]
  | cons p rest ih =>
    obtain ⟨k0, v0⟩ := p
    by_cases h0 : k0 = k
    · subst h0
      have hkn : ¬(k0 = n) := h
      simp [insertStr, lookupStr, hkn]
    · simp [insertStr, lookupStr, h0, ih]

theorem lookupStr_insertAllStr_not_mem :
    ∀ (upd l : List (String × α)) (n : String), n ∉ upd.map Prod.fst →
      lookupStr (insertAllStr l upd) n = lookupStr l n
  | [], l, n, _ => rfl
  | (k, v) :: rest, l, n, h => by
    simp only [List.map_cons, List.mem_cons] at h
    push_neg at h
    simp only [insertAllStr]
    rw [lookupStr_insertAllStr_not_mem rest _ n h.2,
      lookupStr_insertStr_ne _ _ _ _ (fun hk => h.1 hk.symm)]

theorem lookupStr_insertAllStr_mem :
    ∀ (upd l : List (String × α)) (k : String) (v : α), (k, v) ∈ upd →
      (upd.map Prod.fst).Nodup → lookupStr (insertAllStr l upd) k = some v
  | [], _, _, _, hmem, _ => by simp at hmem
  | (k0, v0) :: rest, l, k, v, hmem, hnd => by
    simp only [List.map_cons, List.nodup_cons] at hnd
    rcases List.mem_cons.mp hmem with h | h
    · cases h
      simp only [insertAllStr]
      rw [lookupStr_insertAllStr_not_mem rest _ _ hnd.1, lookupStr_insertStr_self]
    · simp only [insertAllStr]
      exact lookupStr_insertAllStr_mem rest (insertStr l k0 v0) k v h hnd.2

/-! ## Helper lemmas about instance creation -/

theorem default_value_frame (m : Model) (ty : String) (v : Value) (m2 : Model)
    (h : default_value m ty = .ok (v, m2)) :
    m2.classes = m.classes ∧ m2.insts = m.insts ∧ m2.caches = m.caches ∧
      m2.ignoreUndefined = m.ignoreUndefined := by
  unfold default_value at h
  split_ifs at h <;> cases h
  all_goals exact ⟨rfl, rfl, rfl, rfl⟩

theorem buildDefaults_frame :
    ∀ (pairs : List (String × String)) (m : Model) (acc a2 : AttrMap) (m2 : Model),
      buildDefaults m pairs acc = .ok (a2, m2) →
      m2.classes = m.classes ∧ m2.insts = m.insts ∧ m2.caches = m.caches ∧
        m2.ignoreUndefined = m.ignoreUndefined
  | [], m, acc, a2, m2, h => by
    simp only [buildDefaults] at h
    cases h
    exact ⟨rfl, rfl, rfl, rfl⟩
  | (k, ty) :: rest, m, acc, a2, m2, h => by
    simp only [buildDefaults] at h
    cases hdv : default_value m ty with
    | error e => rw [hdv] at h; simp at h
    | ok pair =>
      obtain ⟨v0, mm⟩ := pair
      rw [hdv] at h
      obtain ⟨h1, h2, h3, h4⟩ :=
        buildDefaults_frame rest mm (insertStr acc k v0) a2 m2 h
      obtain ⟨g1, g2, g3, g4⟩ := default_value_frame m ty v0 mm hdv
      exact ⟨h1.trans g1, h2.trans g2, h3.trans g3, h4.trans g4⟩

/-! ## Helper lemmas about attribute writes -/

theorem setFirstCi_none :
    ∀ (attrs : AttrMap) (ln : String) (v : Value),
      (∀ kv ∈ attrs, pyLower kv.1 ≠ ln) → setFirstCi attrs ln v = none
  | [], _, _, _ => rfl
  | (k0, v0) :: rest, ln, v, h => by
    have hk : ¬(pyLower k0 = ln) := h (k0, v0) (List.mem_cons_self _ _)
    simp only [setFirstCi, if_neg hk]
    rw [setFirstCi_none rest ln v (fun kv hkv => h kv (List.mem_cons_of_mem _ hkv))]

theorem setFirstCi_some :
    ∀ (attrs : AttrMap) (ln : String) (v : Value) (kv : String × Value),
      kv ∈ attrs → pyLower kv.1 = ln → ∃ a2, setFirstCi attrs ln v = some a2
  | [], _, _, _, hmem, _ => by simp at hmem
  | (k0, v0) :: rest, ln, v, kv, hmem, hl => by
    by_cases hk : pyLower k0 = ln
    · exact ⟨(k0, v) :: rest, by simp [setFirstCi, hk]⟩
    · have hrest : kv ∈ rest := by
        rcases List.mem_cons.mp hmem with h | h
        · cases h; exact absurd hl hk
        · exact h
      obtain ⟨a2, ha⟩ := setFirstCi_some rest ln v kv hrest hl
      exact ⟨(k0, v0) :: a2, by simp [setFirstCi, hk, ha]⟩

/-! ## C3 and C4: the ordered-set container -/

/-- C3: the claim says `pop` fails with an empty-container error if and
only if the container is empty, and otherwise removes and returns the
first or last element. On the code, `pop` on the empty container does
raise `KeyError`, but on every non-empty container it raises `TypeError`
instead of returning an element, because `discard` subscripts the Python
builtin `next` (model.py line 145). Evaluations at the failing inputs. -/
theorem C3_pop_always_fails :
    OrderedSet.pop ([] : List Nat) true = .error (.keyError "set is empty") ∧
    OrderedSet.pop ([] : List Nat) false = .error (.keyError "set is empty") ∧
    OrderedSet.pop ([1, 2] : List Nat) true = .error .typeError ∧
    OrderedSet.pop ([1, 2] : List Nat) false = .error .typeError := by
  refine ⟨rfl, rfl, by decide, by decide⟩

/-- C4: the claim says `discard` never fails and removes a present
element. On the code, `discard` of a present element raises `TypeError`
(`next[1] = prev` subscripts the Python builtin `next`, model.py line
145); only the absent-element no-op half of the claim holds. Evaluation at
the failing input. -/
theorem C4_discard_raises_when_present :
    OrderedSet.discard ([1] : List Nat) 1 = .error .typeError ∧
    OrderedSet.discard ([1] : List Nat) 2 = .ok [1] := by
  exact ⟨by decide, by decide⟩

/-! ## C9: writes to unknown attribute names -/

/-- C9: for every instance, assigning to a name that matches no attribute
of the instance case-insensitively returns normally (the embedded
`setattrOp` is a total function into `Model`) and leaves the whole model
state unchanged — no slot is created or modified and no class cache is
cleared. -/
theorem C9_unknown_write_is_noop (m : Model) (r : InstRef) (name : String) (v : Value)
    (attrs : AttrMap) (h1 : instAttrs m r = some attrs)
    (h2 : ∀ kv ∈ attrs, pyLower kv.1 ≠ pyLower name) :
    setattrOp m r name v = m := by
  unfold instAttrs at h1
  cases hL : lookupStr m.insts r.1 with
  | none => simp [hL] at h1
  | some tbl =>
    simp only [hL] at h1
    cases hg : tbl[r.2]? with
    | none => simp [hg] at h1
    | some attrs0 =>
      simp only [hg, Option.some.injEq] at h1
      subst h1
      simp only [setattrOp, hL, hg, setFirstCi_none attrs0 (pyLower name) v h2]

/-- C9 witness: a concrete unknown-name write on the Person model leaves
the state untouched. -/
theorem C9_witness :
    instAttrs personAlice ("Person", 0) =
      some [("name", .vstr "Alice"), ("age", .vint 30)] ∧
    setattrOp personAlice ("Person", 0) "nickname" (.vint 1) = personAlice := by
  refine ⟨by decide, ?_⟩
  exact C9_unknown_write_is_noop personAlice ("Person", 0) "nickname" (.vint 1)
    [("name", .vstr "Alice"), ("age", .vint 30)] (by decide) (by decide)

/-! ## C1: cache invalidation on attribute write and construction -/

/-- C1: (a) every successful attribute set on an instance leaves the
instance's class-wide association-result cache empty, and (b) every
successful construction through `new` leaves the constructed class's cache
empty — so a navigation evaluated after either event can never read a
result cached before it. -/
theorem C1_cache_invalidation :
    (∀ (m : Model) (r : InstRef) (name : String) (v : Value) (attrs : AttrMap)
        (kv : String × Value), instAttrs m r = some attrs → kv ∈ attrs →
        pyLower kv.1 = pyLower name →
        cacheOf (setattrOp m r name v) r.1 = []) ∧
    (∀ (m : Model) (kind : String) (args : List Value) (kwargs : List (String × Value))
        (r : InstRef) (m2 : Model), newOp m kind args kwargs = .ok (some r, m2) →
        cacheOf m2 kind = []) := by
  constructor
  · intro m r name v attrs kv h1 hmem hl
    unfold instAttrs at h1
    cases hL : lookupStr m.insts r.1 with
    | none => simp [hL] at h1
    | some tbl =>
      simp only [hL] at h1
      cases hg : tbl[r.2]? with
      | none => simp [hg] at h1
      | some attrs0 =>
        simp only [hg, Option.some.injEq] at h1
        subst h1
        obtain ⟨a2, ha⟩ := setFirstCi_some attrs0 (pyLower name) v kv hmem hl
        simp only [setattrOp, hL, hg, ha, clearCache, cacheOf]
        rw [lookupStr_insertStr_self]
        rfl
  · intro m kind args kwargs r m2 h
    unfold newOp at h
    cases hc : lookupStr m.classes kind with
    | none =>
      simp only [hc] at h
      by_cases hig : m.ignoreUndefined <;> simp [hig] at h
    | some cd =>
      simp only [hc] at h
      cases hbd : buildDefaults (clearCache m kind) (cd.pnames.zip cd.ptypes) [] with
      | error e =>
        simp only [hbd] at h
        exact Except.noConfusion h
      | ok p =>
        obtain ⟨attrs1, mB⟩ := p
        simp only [hbd] at h
        cases hap : applyPositional attrs1 ((cd.pnames.zip cd.ptypes).zip args) with
        | error e =>
          simp only [hap] at h
          exact Except.noConfusion h
        | ok attrs2 =>
          simp only [hap] at h
          simp only [Except.ok.injEq, Prod.mk.injEq, Option.some.injEq] at h
          obtain ⟨hr, hm2⟩ := h
          subst hm2
          have hcache : mB.caches = (clearCache m kind).caches :=
            (buildDefaults_frame _ _ _ _ _ hbd).2.2.1
          simp only [cacheOf, hcache, clearCache]
          rw [lookupStr_insertStr_self]
          rfl

/-! ## C5: default values of freshly created instances -/

theorem getElem?_append_singleton (l : List α) (a : α) : (l ++ [a])[l.length]? = some a := by
  induction l with
  | nil => rfl
  | cons x xs ih => simp [ih]

theorem insertStr_append_of_not_mem (l : List (String × α)) (k : String) (v : α)
    (h : ∀ p ∈ l, p.1 ≠ k) : insertStr l k v = l ++ [(k, v)] := by
  induction l with
  | nil => rfl
  | cons p rest ih =>
    obtain ⟨k0, v0⟩ := p
    have hk : ¬(k0 = k) := h (k0, v0) (List.mem_cons_self _ _)
    simp only [insertStr, if_neg hk, List.cons_append, List.cons.injEq, true_and]
    exact ih (fun p hp => h p (List.mem_cons_of_mem _ hp))

theorem default_value_of_five (m : Model) (ty : String)
    (h : ty ∈ (["boolean", "integer", "real", "string", "unique_id"] : List String)) :
    default_value m ty =
      .ok (claimDefault ty m.nextId,
        { m with nextId := if ty = "unique_id" then m.nextId + 1 else m.nextId }) := by
  simp only [List.mem_cons, List.mem_singleton, List.not_mem_nil, or_false] at h
  rcases h with rfl | rfl | rfl | rfl | rfl <;> rfl

theorem buildDefaults_of_five :
    ∀ (ns ts : List String) (m : Model) (acc : AttrMap),
      (∀ ty ∈ ts, ty ∈ (["boolean", "integer", "real", "string", "unique_id"] : List String)) →
      ns.length = ts.length → ns.Nodup → (∀ n ∈ ns, ∀ p ∈ acc, p.1 ≠ n) →
      ∃ m2, buildDefaults m (ns.zip ts) acc = .ok (acc ++ defaultsSpec ns ts m.nextId, m2) ∧
        m2.classes = m.classes ∧ m2.insts = m.insts ∧ m2.caches = m.caches
  | [], [], m, acc, _, _, _, _ => ⟨m, by simp [buildDefaults, defaultsSpec], rfl, rfl, rfl⟩
  | [], t :: ts, m, acc, _, hlen, _, _ => by simp at hlen
  | n :: ns, [], m, acc, _, hlen, _, _ => by simp at hlen
  | n :: ns, t :: ts, m, acc, hfive, hlen, hnd, hacc => by
    have ht : t ∈ (["boolean", "integer", "real", "string", "unique_id"] : List String) :=
      hfive t (List.mem_cons_self _ _)
    have hnd2 := List.nodup_cons.mp hnd
    have hacc2 : ∀ k ∈ ns, ∀ p ∈ acc ++ [(n, claimDefault t m.nextId)], p.1 ≠ k := by
      intro k hk p hp
      rcases List.mem_append.mp hp with hp | hp
      · exact hacc k (List.mem_cons_of_mem _ hk) p hp
      · simp only [List.mem_singleton] at hp
        subst hp
        intro hkn
        have hnk : n = k := hkn
        exact hnd2.1 (hnk ▸ hk)
    obtain ⟨m2, hrec, f1, f2, f3⟩ :=
      buildDefaults_of_five ns ts
        { m with nextId := if t = "unique_id" then m.nextId + 1 else m.nextId }
        (acc ++ [(n, claimDefault t m.nextId)])
        (fun ty hty => hfive ty (List.mem_cons_of_mem _ hty))
        (by simpa using hlen) hnd2.2 hacc2
    refine ⟨m2, ?_, f1, f2, f3⟩
    simp only [List.zip_cons_cons, buildDefaults, default_value_of_five m t ht]
    rw [insertStr_append_of_not_mem acc n (claimDefault t m.nextId)
      (fun p hp => hacc n (List.mem_cons_self _ _) p hp)]
    have hrec2 : buildDefaults
        { m with nextId := if t = "unique_id" then m.nextId + 1 else m.nextId }
        (List.zipWith Prod.mk ns ts) (acc ++ [(n, claimDefault t m.nextId)]) =
        Except.ok (acc ++ [(n, claimDefault t m.nextId)] ++
          defaultsSpec ns ts (if t = "unique_id" then m.nextId + 1 else m.nextId), m2) := hrec
    rw [hrec2]
    simp [defaultsSpec, List.append_assoc]

/-- C5 counterexample to the claim as stated: `inst_ref` is one of the
seven declared type names, yet `new` on a class with an `inst_ref`
attribute raises `ModelException` from `default_value` instead of
succeeding. -/
theorem C5_counterexample :
    newOp instRefModel "R" [] [] =
      .error (.modelException "Unknown type named inst_ref") := by
  decide

/-- C5 (amended): for a class whose attribute type names are drawn from
the five defaultable types (boolean, integer, real, string, unique_id),
`new` with no overriding arguments succeeds and every declared attribute
of the fresh instance carries its type default — false, 0, 0.0, the empty
string, or the next identity value — in declaration order; classes with an
`inst_ref` or `inst_ref_set` attribute instead fail with an unknown-type
error (see the counterexample). -/
theorem C5_five_type_defaults (m : Model) (kind : String) (cd : ClassDef)
    (h1 : lookupStr m.classes kind = some cd)
    (h2 : ∀ ty ∈ cd.ptypes,
      ty ∈ (["boolean", "integer", "real", "string", "unique_id"] : List String))
    (h3 : cd.pnames.length = cd.ptypes.length) (h4 : cd.pnames.Nodup) :
    ∃ m2, newOp m kind [] [] =
        .ok (some (kind, ((lookupStr m.insts kind).getD []).length), m2) ∧
      instAttrs m2 (kind, ((lookupStr m.insts kind).getD []).length) =
        some (defaultsSpec cd.pnames cd.ptypes m.nextId) := by
  obtain ⟨mB, hbd, hcl, hin, hca⟩ :=
    buildDefaults_of_five cd.pnames cd.ptypes (clearCache m kind) [] h2 h3 h4 (by simp)
  have hmi : mB.insts = m.insts := hin
  have hnil : ((cd.pnames.zip cd.ptypes).zip ([] : List Value)) = [] := List.zip_nil_right
  refine
    ⟨{ mB with insts := (insertStr m.insts kind ((lookupStr m.insts kind).getD [] ++ [defaultsSpec cd.pnames cd.ptypes m.nextId])) },
      ?_, ?_⟩
  · simp only [newOp, h1, hbd, hnil, applyPositional, insertAllStr, List.nil_append]
    rw [hmi]
    rfl
  · simp only [instAttrs, lookupStr_insertStr_self]
    rw [getElem?_append_singleton]

/-- C5 witness: the amended theorem applied to a class with one attribute
of each of the five defaultable types. -/
theorem C5_witness :
    ∃ m2, newOp fiveModel "F" [] [] = .ok (some ("F", 0), m2) ∧
      instAttrs m2 ("F", 0) =
        some [("b", .vbool false), ("i", .vint 0), ("r", .vreal 0),
          ("s", .vstr ""), ("u", .vid 0)] := by
  obtain ⟨m2, hn, ha⟩ := C5_five_type_defaults fiveModel "F"
    ⟨["b", "i", "r", "s", "u"], ["boolean", "integer", "real", "string", "unique_id"]⟩
    (by decide) (by decide) (by decide) (by decide)
  exact ⟨m2, hn, ha⟩

/-- C1 witness: on a model whose `B` cache holds a memoized result, a
successful attribute write on a `B` instance empties the cache, and so
does constructing a fresh `B` instance. -/
theorem C1_witness :
    cacheOf abCached "B" ≠ [] ∧
    cacheOf (setattrOp abCached ("B", 0) "X" (.vint 7)) "B" = [] ∧
    newOp abCached "B" [] [] = .ok (some ("B", 2), abNewB.2) ∧
    cacheOf abNewB.2 "B" = [] := by
  refine ⟨by decide, ?_, by decide, ?_⟩
  · exact C1_cache_invalidation.1 abCached ("B", 0) "X" (.vint 7)
      [("x", .vint 2)] ("x", .vint 2) (by decide) (by decide) (by decide)
  · exact C1_cache_invalidation.2 abCached "B" [] [] ("B", 2) abNewB.2 (by decide)

/-! ## C6: case-insensitive attribute identity -/

theorem lookupStr_mem_keys (l : List (String × α)) (k : String) (v : α)
    (h : lookupStr l k = some v) : k ∈ l.map Prod.fst := by
  induction l with
  | nil => simp [lookupStr] at h
  | cons p rest ih =>
    obtain ⟨k0, v0⟩ := p
    by_cases hk : k0 = k
    · subst hk; exact List.mem_cons_self _ _
    · simp only [lookupStr, if_neg hk] at h
      exact List.mem_cons_of_mem _ (ih h)

theorem lookupStr_eq_none_of_not_mem (l : List (String × α)) (k : String)
    (h : k ∉ l.map Prod.fst) : lookupStr l k = none := by
  cases hl : lookupStr l k with
  | none => rfl
  | some v => exact absurd (lookupStr_mem_keys l k v hl) h

theorem getattrA_cons_skip (k0 : String) (v0 : Value) (t : AttrMap) (name : String)
    (h1 : k0 ≠ name) (h2 : ¬(pyLower k0 = pyLower name)) :
    getattrA ((k0, v0) :: t) name = getattrA t name := by
  simp only [getattrA, lookupStr, if_neg h1]
  cases hl : lookupStr t name with
  | some v => rfl
  | none =>
    simp only [List.find?]
    rw [show (decide (pyLower (k0, v0).1 = pyLower name)) = false by
      simpa using h2]

theorem setFirstCi_roundtrip :
    ∀ (attrs : AttrMap) (name1 name2 : String) (v : Value) (k0 : String),
      (attrs.map Prod.fst).filter (fun k => pyLower k == pyLower name1) = [k0] →
      pyLower name2 = pyLower name1 →
      ∃ attrs2, setFirstCi attrs (pyLower name1) v = some attrs2 ∧
        getattrA attrs2 name2 = .ok v
  | [], name1, name2, v, k0, hf, _ => by simp at hf
  | (kh, vh) :: rest, name1, name2, v, k0, hf, h12 => by
    by_cases hk : pyLower kh = pyLower name1
    · have hfr : (rest.map Prod.fst).filter (fun k => pyLower k == pyLower name1) = [] := by
        simp only [List.map_cons, List.filter_cons] at hf
        rw [if_pos (by simpa using hk)] at hf
        exact (List.cons.injEq .. ▸ hf).2
      refine ⟨(kh, v) :: rest, by simp [setFirstCi, hk], ?_⟩
      by_cases hname : kh = name2
      · subst hname
        simp [getattrA, lookupStr]
      · have hnone : lookupStr rest name2 = none := by
          apply lookupStr_eq_none_of_not_mem
          intro hmem
          have : name2 ∈ (rest.map Prod.fst).filter (fun k => pyLower k == pyLower name1) :=
            List.mem_filter.mpr ⟨hmem, by simp [h12]⟩
          rw [hfr] at this
          simp at this
        simp only [getattrA, lookupStr, if_neg hname, hnone, List.find?]
        rw [show (decide (pyLower (kh, v).1 = pyLower name2)) = true by
          simp [hk, h12]]
    · have hfr : (rest.map Prod.fst).filter (fun k => pyLower k == pyLower name1) = [k0] := by
        simp only [List.map_cons, List.filter_cons] at hf
        rw [if_neg (by simpa using hk)] at hf
        exact hf
      obtain ⟨attrs2, hset, hget⟩ := setFirstCi_roundtrip rest name1 name2 v k0 hfr h12
      refine ⟨(kh, vh) :: attrs2, by simp [setFirstCi, hk, hset], ?_⟩
      have hne : kh ≠ name2 := fun hh => hk (by rw [hh, h12])
      rw [getattrA_cons_skip kh vh attrs2 name2 hne (fun hh => hk (hh.trans h12))]
      exact hget

theorem getElem?_set_of_some (l : List α) (i : Nat) (a b : α) (h : l[i]? = some a) :
    (l.set i b)[i]? = some b := by
  induction l generalizing i with
  | nil => simp at h
  | cons x xs ih =>
    cases i with
    | zero => simp
    | succ n => simpa using ih n (by simpa using h)

theorem newOp_ok_inversion (m : Model) (kind : String) (args : List Value)
    (kwargs : List (String × Value)) (r : InstRef) (m2 : Model)
    (h : newOp m kind args kwargs = .ok (some r, m2)) :
    ∃ cd attrs1 mB attrs2,
      lookupStr m.classes kind = some cd ∧
      buildDefaults (clearCache m kind) (cd.pnames.zip cd.ptypes) [] = .ok (attrs1, mB) ∧
      applyPositional attrs1 ((cd.pnames.zip cd.ptypes).zip args) = .ok attrs2 ∧
      r = (kind, ((lookupStr mB.insts kind).getD []).length) ∧
      m2 = { mB with insts := (insertStr mB.insts kind ((lookupStr mB.insts kind).getD [] ++ [insertAllStr attrs2 kwargs])) } ∧
      instAttrs m2 r = some (insertAllStr attrs2 kwargs) := by
  unfold newOp at h
  cases hc : lookupStr m.classes kind with
  | none =>
    simp only [hc] at h
    by_cases hig : m.ignoreUndefined <;> simp [hig] at h
  | some cd =>
    simp only [hc] at h
    cases hbd : buildDefaults (clearCache m kind) (cd.pnames.zip cd.ptypes) [] with
    | error e =>
      simp only [hbd] at h
      exact Except.noConfusion h
    | ok p =>
      obtain ⟨attrs1, mB⟩ := p
      simp only [hbd] at h
      cases hap : applyPositional attrs1 ((cd.pnames.zip cd.ptypes).zip args) with
      | error e =>
        simp only [hap] at h
        exact Except.noConfusion h
      | ok attrs2 =>
        simp only [hap] at h
        simp only [Except.ok.injEq, Prod.mk.injEq, Option.some.injEq] at h
        obtain ⟨hr, hm2⟩ := h
        refine ⟨cd, attrs1, mB, attrs2, rfl, hbd, hap, hr.symm, hm2.symm, ?_⟩
        subst hm2
        subst hr
        simp only [instAttrs, lookupStr_insertStr_self]
        rw [getElem?_append_singleton]

/-- C6 counterexample to the claim as stated: assigning the declared
attribute `name` through the named argument `Name` of `new` does not
resolve to the canonical stored slot — a second slot `Name` is created and
a read of `name` still returns the default empty string rather than the
assigned value. -/
theorem C6_counterexample :
    newOp personModel "Person" [] [("Name", .vstr "Bob")] =
      .ok (some ("Person", 0), personKwCased) ∧
    instAttrs personKwCased ("Person", 0) =
      some [("name", .vstr ""), ("age", .vint 0), ("Name", .vstr "Bob")] ∧
    getattrOp personKwCased ("Person", 0) "name" = .ok (.vstr "") ∧
    getattrOp personKwCased ("Person", 0) "name" ≠ .ok (.vstr "Bob") := by
  refine ⟨by decide, by decide, by decide, by decide⟩

/-- C6 (amended): attribute assignment through the instance attribute
protocol is case-insensitive — when exactly one stored slot matches the
assigned name case-insensitively, the write lands in that canonical slot
and a subsequent read under any casing of the name returns the assigned
value. Named arguments of `new`, by contrast, are inserted verbatim into
the instance dictionary: an exact-case named argument updates the declared
slot (second clause), but a differently-cased named argument creates a
separate slot and leaves the declared one untouched (see the
counterexample). -/
theorem C6_case_insensitive_amended :
    (∀ (m : Model) (r : InstRef) (name1 name2 : String) (v : Value) (attrs : AttrMap)
        (k0 : String), instAttrs m r = some attrs →
        (attrs.map Prod.fst).filter (fun k => pyLower k == pyLower name1) = [k0] →
        pyLower name2 = pyLower name1 →
        getattrOp (setattrOp m r name1 v) r name2 = .ok v) ∧
    (∀ (m : Model) (kind : String) (args : List Value) (kwargs : List (String × Value))
        (k : String) (v : Value) (r : InstRef) (m2 : Model),
        (kwargs.map Prod.fst).Nodup → (k, v) ∈ kwargs →
        newOp m kind args kwargs = .ok (some r, m2) →
        ∃ attrs3, instAttrs m2 r = some attrs3 ∧ lookupStr attrs3 k = some v) := by
  constructor
  · intro m r name1 name2 v attrs k0 h1 hf h12
    unfold instAttrs at h1
    cases hL : lookupStr m.insts r.1 with
    | none => simp [hL] at h1
    | some tbl =>
      simp only [hL] at h1
      cases hg : tbl[r.2]? with
      | none => simp [hg] at h1
      | some attrs0 =>
        simp only [hg, Option.some.injEq] at h1
        subst h1
        obtain ⟨attrs2, hset, hget⟩ := setFirstCi_roundtrip attrs0 name1 name2 v k0 hf h12
        simp only [setattrOp, hL, hg, hset, getattrOp, instAttrs, clearCache,
          lookupStr_insertStr_self]
        rw [getElem?_set_of_some tbl r.2 attrs0 attrs2 hg]
        exact hget
  · intro m kind args kwargs k v r m2 hnd hmem h
    obtain ⟨cd, attrs1, mB, attrs2, _, _, _, _, _, hattrs⟩ :=
      newOp_ok_inversion m kind args kwargs r m2 h
    exact ⟨insertAllStr attrs2 kwargs, hattrs,
      lookupStr_insertAllStr_mem kwargs attrs2 k v hmem hnd⟩

/-- C6 witness: on a live Person instance, writing `NAME` and reading
`NaMe` round-trips through the canonical `name` slot; and the exact-case
named argument `name="Bob"` of `new` updates the declared slot. -/
theorem C6_witness :
    getattrOp (setattrOp personAlice ("Person", 0) "NAME" (.vstr "Zed"))
      ("Person", 0) "NaMe" = .ok (.vstr "Zed") ∧
    (∃ attrs3, instAttrs personBob ("Person", 0) = some attrs3 ∧
      lookupStr attrs3 "name" = some (.vstr "Bob")) := by
  constructor
  · exact C6_case_insensitive_amended.1 personAlice ("Person", 0) "NAME" "NaMe"
      (.vstr "Zed") [("name", .vstr "Alice"), ("age", .vint 30)] "name"
      (by decide) (by decide) (by decide)
  · exact C6_case_insensitive_amended.2 personModel "Person" []
      [("name", .vstr "Bob")] "name" (.vstr "Bob") ("Person", 0) personBob
      (by decide) (by decide) (by decide)

/-! ## C7: positional coercion versus verbatim named arguments -/

theorem applyPositional_frame :
    ∀ (trips : List ((String × String) × Value)) (a a2 : AttrMap) (n : String),
      applyPositional a trips = .ok a2 → n ∉ trips.map (fun t => t.1.1) →
      lookupStr a2 n = lookupStr a n
  | [], a, a2, n, h, _ => by
    simp only [applyPositional] at h
    cases h
    rfl
  | ((nm, ty0), v0) :: rest, a, a2, n, h, hnot => by
    simp only [List.map_cons, List.mem_cons] at hnot
    push_neg at hnot
    simp only [applyPositional] at h
    cases hco : pyCoerce ty0 v0 with
    | error e =>
      simp only [hco] at h
      exact Except.noConfusion h
    | ok w =>
      simp only [hco] at h
      rw [applyPositional_frame rest _ a2 n h hnot.2,
        lookupStr_insertStr_ne _ _ _ _ (fun hk => hnot.1 hk.symm)]

theorem applyPositional_mem :
    ∀ (trips : List ((String × String) × Value)) (a a2 : AttrMap) (n ty : String)
      (v : Value), applyPositional a trips = .ok a2 → ((n, ty), v) ∈ trips →
      (trips.map (fun t => t.1.1)).Nodup →
      ∃ w, pyCoerce ty v = .ok w ∧ lookupStr a2 n = some w
  | [], _, _, _, _, _, _, hmem, _ => by simp at hmem
  | ((nm, ty0), v0) :: rest, a, a2, n, ty, v, h, hmem, hnd => by
    simp only [List.map_cons, List.nodup_cons] at hnd
    simp only [applyPositional] at h
    cases hco : pyCoerce ty0 v0 with
    | error e =>
      simp only [hco] at h
      exact Except.noConfusion h
    | ok w0 =>
      simp only [hco] at h
      rcases List.mem_cons.mp hmem with hh | hh
      · cases hh
        refine ⟨w0, hco, ?_⟩
        rw [applyPositional_frame rest _ a2 nm h hnd.1, lookupStr_insertStr_self]
      · exact applyPositional_mem rest _ a2 n ty v h hh hnd.2

theorem zipNames_sublist :
    ∀ (ns ts : List String) (args : List Value),
      (((ns.zip ts).zip args).map (fun t => t.1.1)).Sublist ns
  | [], _, _ => by simp
  | _ :: _, [], _ => by simp
  | _ :: _, _ :: _, [] => by simp
  | n :: ns, t :: ts, v :: args => by
    simp only [List.zip_cons_cons, List.map_cons]
    exact (zipNames_sublist ns ts args).cons₂ n

/-- C7: positional arguments of `new` are paired with the declared
attributes in declaration order and coerced into the declared type when
not already an instance of it, while named arguments are written into the
instance dictionary verbatim without coercion; in particular
`new("Person", "Alice", 30)` yields name="Alice", age=30 and
`new("Person", name="Bob")` yields name="Bob", age=0. -/
theorem C7_positional_named_asymmetry :
    (∀ (m : Model) (kind : String) (args : List Value) (kwargs : List (String × Value))
        (r : InstRef) (m2 : Model) (cd : ClassDef) (n ty : String) (v : Value),
        lookupStr m.classes kind = some cd → cd.pnames.Nodup →
        newOp m kind args kwargs = .ok (some r, m2) →
        ((n, ty), v) ∈ (cd.pnames.zip cd.ptypes).zip args →
        n ∉ kwargs.map Prod.fst →
        ∃ attrs3 w, instAttrs m2 r = some attrs3 ∧ pyCoerce ty v = .ok w ∧
          lookupStr attrs3 n = some w) ∧
    (∀ (m : Model) (kind : String) (args : List Value) (kwargs : List (String × Value))
        (k : String) (v : Value) (r : InstRef) (m2 : Model),
        (kwargs.map Prod.fst).Nodup → (k, v) ∈ kwargs →
        newOp m kind args kwargs = .ok (some r, m2) →
        ∃ attrs3, instAttrs m2 r = some attrs3 ∧ lookupStr attrs3 k = some v) ∧
    (newOp personModel "Person" [.vstr "Alice", .vint 30] [] =
        .ok (some ("Person", 0), personAlice) ∧
      getattrOp personAlice ("Person", 0) "name" = .ok (.vstr "Alice") ∧
      getattrOp personAlice ("Person", 0) "age" = .ok (.vint 30)) ∧
    (newOp personModel "Person" [] [("name", .vstr "Bob")] =
        .ok (some ("Person", 0), personBob) ∧
      getattrOp personBob ("Person", 0) "name" = .ok (.vstr "Bob") ∧
      getattrOp personBob ("Person", 0) "age" = .ok (.vint 0)) := by
  refine ⟨?_, ?_, ⟨by decide, by decide, by decide⟩, ⟨by decide, by decide, by decide⟩⟩
  · intro m kind args kwargs r m2 cd n ty v hc hnd h hmem hnk
    obtain ⟨cd2, attrs1, mB, attrs2, hc2, hbd, hap, hr, hm2, hattrs⟩ :=
      newOp_ok_inversion m kind args kwargs r m2 h
    have hcd : cd2 = cd := by
      rw [hc] at hc2
      exact (Option.some.inj hc2).symm
    subst hcd
    have hndz : ((((cd2.pnames.zip cd2.ptypes).zip args).map (fun t => t.1.1))).Nodup :=
      (zipNames_sublist cd2.pnames cd2.ptypes args).nodup hnd
    obtain ⟨w, hw, hlook⟩ := applyPositional_mem _ attrs1 attrs2 n ty v hap hmem hndz
    refine ⟨insertAllStr attrs2 kwargs, w, hattrs, hw, ?_⟩
    rw [lookupStr_insertAllStr_not_mem kwargs attrs2 n hnk]
    exact hlook
  · intro m kind args kwargs k v r m2 hnd hmem h
    obtain ⟨cd2, attrs1, mB, attrs2, _, _, _, _, _, hattrs⟩ :=
      newOp_ok_inversion m kind args kwargs r m2 h
    exact ⟨insertAllStr attrs2 kwargs, hattrs,
      lookupStr_insertAllStr_mem kwargs attrs2 k v hmem hnd⟩

/-- C7 witness: on a class with a single `real` attribute, the positional
integer 3 is stored coerced to the float 3.0, while the same integer
passed as a named argument is stored uncoerced as the integer 3. -/
theorem C7_witness :
    (∃ attrs3 w, instAttrs coerceNewC.2 ("C", 0) = some attrs3 ∧
      pyCoerce "real" (.vint 3) = .ok w ∧ lookupStr attrs3 "val" = some w) ∧
    pyCoerce "real" (.vint 3) = .ok (.vreal 3) ∧
    (∃ attrs3, instAttrs coerceNamedC.2 ("C", 0) = some attrs3 ∧
      lookupStr attrs3 "val" = some (.vint 3)) := by
  refine ⟨?_, by decide, ?_⟩
  · exact C7_positional_named_asymmetry.1 coerceModel "C" [.vint 3] [] ("C", 0)
      coerceNewC.2 ⟨["val"], ["real"]⟩ "val" "real" (.vint 3)
      (by decide) (by decide) (by decide) (by decide) (by decide)
  · exact C7_positional_named_asymmetry.2.1 coerceModel "C" [] [("val", .vint 3)]
      "val" (.vint 3) ("C", 0) coerceNamedC.2 (by decide) (by decide) (by decide)

/-! ## C10: surplus positional arguments -/

theorem zip_take_of_length_le :
    ∀ (l : List α) (args : List β) (n : Nat), l.length ≤ n →
      l.zip (args.take n) = l.zip args
  | [], _, _, _ => by simp
  | x :: xs, [], n, _ => by simp
  | x :: xs, a :: rest, n, h => by
    cases n with
    | zero => simp at h
    | succ k =>
      simp only [List.take_succ_cons, List.zip_cons_cons]
      rw [zip_take_of_length_le xs rest k (by simpa using h)]

/-- C10: for a defined class with n declared attributes, `new` with more
than n positional arguments behaves exactly like `new` with only the first
n of them — the surplus arguments are truncated by the `zip` of the
positional loop and have no effect of any kind (the result, the instance
attributes, the id stream and every error case coincide); in particular
the call succeeds whenever the truncated call does. -/
theorem C10_extra_positionals_ignored (m : Model) (kind : String) (cd : ClassDef)
    (args : List Value) (kwargs : List (String × Value))
    (h1 : lookupStr m.classes kind = some cd)
    (h2 : cd.pnames.length < args.length) :
    newOp m kind args kwargs = newOp m kind (args.take cd.pnames.length) kwargs := by
  have hlen : (cd.pnames.zip cd.ptypes).length ≤ cd.pnames.length := by
    rw [List.length_zip]
    exact Nat.min_le_left _ _
  have hz : (cd.pnames.zip cd.ptypes).zip (args.take cd.pnames.length) =
      (cd.pnames.zip cd.ptypes).zip args :=
    zip_take_of_length_le _ args _ hlen
  simp only [newOp, h1, hz]

/-- C10 witness: `new("Person", "Al", 7, 9, "zz")` coincides with
`new("Person", "Al", 7)` and succeeds. -/
theorem C10_witness :
    newOp personModel "Person" [.vstr "Al", .vint 7, .vint 9, .vstr "zz"] [] =
      newOp personModel "Person" [.vstr "Al", .vint 7] [] ∧
    newOp personModel "Person" [.vstr "Al", .vint 7, .vint 9, .vstr "zz"] [] =
      .ok (some ("Person", 0), personExtra) := by
  constructor
  · exact C10_extra_positionals_ignored personModel "Person"
      ⟨["name", "age"], ["string", "integer"]⟩
      [.vstr "Al", .vint 7, .vint 9, .vstr "zz"] [] (by decide) (by decide)
  · decide

/-! ## C8: terminal evaluation of a navigation chain -/

theorem head?_filter_eq_find? (p : α → Bool) :
    ∀ (l : List α), (l.filter p).head? = l.find? p
  | [] => rfl
  | x :: xs => by
    cases hp : p x with
    | true => simp [List.filter_cons, List.find?, hp]
    | false => simp [List.filter_cons, List.find?, hp, head?_filter_eq_find? p xs]

theorem foldl_add_of_nodup [DecidableEq α] :
    ∀ (l acc : List α), (acc ++ l).Nodup → l.foldl OrderedSet.add acc = acc ++ l
  | [], acc, _ => by simp
  | x :: xs, acc, h => by
    have hx : x ∉ acc := fun hmem =>
      (List.disjoint_of_nodup_append h) hmem (List.mem_cons_self x xs)
    simp only [List.foldl_cons, OrderedSet.add, if_neg hx]
    rw [foldl_add_of_nodup xs (acc ++ [x]) (by simpa using h)]
    simp

theorem querySetOf_of_nodup (l : List InstRef) (h : l.Nodup) : querySetOf l = l := by
  unfold querySetOf
  rw [foldl_add_of_nodup l [] (by simpa using h)]
  simp

/-- C8: terminal evaluation of a navigation chain over any bound set with
an optional filter predicate — under "one" intent it returns the first
bound instance satisfying the predicate (or none, also when the predicate
is absent and the bound set is empty), under "many" intent the full
filtered ordered result set; the final two clauses evaluate a "one"
navigation over a conditional `1C` link concretely: zero matching peers
yield none and exactly one matching peer yields that peer. -/
theorem C8_terminal_evaluation :
    (∀ (c : NavChain) (p : InstRef → Bool), c.is_many = false →
        c.call (some p) = .one (c.handle.find? p)) ∧
    (∀ c : NavChain, c.is_many = false → c.call none = .one c.handle.head?) ∧
    (∀ (c : NavChain) (p : InstRef → Bool), c.is_many = true → c.handle.Nodup →
        c.call (some p) = .many (c.handle.filter p)) ∧
    (∀ c : NavChain, c.is_many = true → c.handle.Nodup → c.call none = .many c.handle) ∧
    (match selectEndpoint abExtra ("A", 1) endA endB1C [] with
      | .ok p => NavChain.call ⟨p.1, false⟩ none
      | .error _ => .one (some ("X", 99))) = .one none ∧
    (match selectEndpoint abExtra ("A", 0) endA endB1C [] with
      | .ok p => NavChain.call ⟨p.1, false⟩ none
      | .error _ => .one none) = .one (some ("B", 1)) := by
  refine ⟨?_, ?_, ?_, ?_, by decide, by decide⟩
  · intro c p h
    simp only [NavChain.call, h, Bool.false_eq_true, if_false]
    rw [head?_filter_eq_find?]
  · intro c h
    simp only [NavChain.call, h, Bool.false_eq_true, if_false, List.filter_true]
  · intro c p h hnd
    simp only [NavChain.call, h, if_true, NavResult.many.injEq]
    exact querySetOf_of_nodup _ (hnd.filter p)
  · intro c h hnd
    simp only [NavChain.call, h, if_true, List.filter_true, NavResult.many.injEq]
    exact querySetOf_of_nodup _ hnd

/-- C8 witness: the one- and many-intent clauses applied to a concrete
two-element bound set and predicate. -/
theorem C8_witness :
    NavChain.call ⟨[("B", 0), ("B", 1)], false⟩ (some (fun r => r.2 == 1)) =
      .one (some ("B", 1)) ∧
    NavChain.call ⟨[("B", 0), ("B", 1)], true⟩ (some (fun r => r.2 == 1)) =
      .many [("B", 1)] := by
  constructor
  · rw [C8_terminal_evaluation.1 ⟨[("B", 0), ("B", 1)], false⟩ (fun r => r.2 == 1) rfl]
    decide
  · rw [C8_terminal_evaluation.2.2.1 ⟨[("B", 0), ("B", 1)], true⟩ (fun r => r.2 == 1)
      rfl (by decide)]
    decide

/-! ## C2: association lookup, caching and memoization -/

theorem getAll_length :
    ∀ (names : List String) (m : Model) (r : InstRef) (vals : List Value),
      getAll m r names = .ok vals → vals.length = names.length
  | [], _, _, vals, h => by
    simp only [getAll] at h
    cases h
    rfl
  | n :: rest, m, r, vals, h => by
    simp only [getAll] at h
    cases hg : getattrOp m r n with
    | error e =>
      simp only [hg] at h
      exact Except.noConfusion h
    | ok v =>
      simp only [hg] at h
      cases hr : getAll m r rest with
      | error e =>
        simp only [hr] at h
        exact Except.noConfusion h
      | ok vs =>
        simp only [hr] at h
        cases h
        simp [getAll_length rest m r vs hr]

theorem zip_append_of_length_eq :
    ∀ (l1 : List α) (l2 : List β) (r1 : List α) (r2 : List β),
      l1.length = l2.length →
      (l1 ++ r1).zip (l2 ++ r2) = l1.zip l2 ++ r1.zip r2
  | [], [], _, _, _ => rfl
  | [], b :: l2, _, _, h => by simp at h
  | a :: l1, [], _, _, h => by simp at h
  | a :: l1, b :: l2, r1, r2, h => by
    simp only [List.cons_append, List.zip_cons_cons]
    rw [zip_append_of_length_eq l1 l2 r1 r2 (by simpa using h)]

theorem zip_map_fst_snd' :
    ∀ (l : List (α × β)), (l.map Prod.fst).zip (l.map Prod.snd) = l
  | [] => rfl
  | (a, b) :: rest => by simp [zip_map_fst_snd' rest]

theorem queryScanSpec_eq :
    ∀ (kind : String) (tbl : List AttrMap) (idx : Nat) (many : Bool)
      (pairs : List (String × Value)),
      queryScanSpec kind tbl idx many pairs = queryScan kind tbl idx many pairs
  | _, [], _, _, _ => rfl
  | kind, a :: rest, idx, many, pairs => by
    simp only [queryScanSpec, queryScan]
    rw [queryScanSpec_eq kind rest (idx + 1) many pairs]

/-- C2 counterexample to the claim as stated: when no instance of the
target class was ever created (its instance table is absent),
`_select_endpoint` returns a fresh empty result set without consulting or
updating the cache, whereas the claim's description stores the scanned
(empty) result under the join-key; the resulting model states differ. -/
theorem C2_counterexample :
    lookupStr abWithA.insts "B" = none ∧
    selectEndpoint abWithA ("A", 0) endA endB [] = .ok ([], abWithA) ∧
    selectEndpointSpec abWithA ("A", 0) endA endB [] =
      .ok ([], { abWithA with
        caches := insertStr abWithA.caches "B" [([("x", .vint 1)], [])] }) ∧
    selectEndpoint abWithA ("A", 0) endA endB [] ≠
      selectEndpointSpec abWithA ("A", 0) endA endB [] := by
  refine ⟨by decide, by decide, by decide, by decide⟩

/-- C2 (amended): provided the target class has an instance table (at
least one instance of it was ever created) and the two association ends
declare the same number of join attributes, `_select_endpoint` behaves
exactly as claimed: it builds the join-key from the target's join
attributes, the source instance's corresponding values and the extra
filter keywords, returns a cache hit unchanged, and otherwise scans the
target instance table in insertion order — keeping every match, stopping
at the first when the link cardinality is not many — stores the result set
under the join-key and returns it. When the instance table is absent, it
instead returns an empty set without touching the cache (see the
counterexample). -/
theorem C2_select_endpoint_refines (m : Model) (r : InstRef)
    (source target : AssociationLink) (kwargs : List (String × Value))
    (tbl : List AttrMap) (h1 : lookupStr m.insts target.kind = some tbl)
    (h2 : source.ids.length = target.ids.length) :
    selectEndpoint m r source target kwargs =
      selectEndpointSpec m r source target kwargs := by
  unfold selectEndpoint selectEndpointSpec
  cases hga : getAll m r source.ids with
  | error e => simp [h1, hga]
  | ok vals =>
    have hlen : target.ids.length = vals.length := by
      rw [getAll_length source.ids m r vals hga, ← h2]
    have hkeys : (target.ids ++ kwargs.map Prod.fst).zip (vals ++ kwargs.map Prod.snd) =
        target.ids.zip vals ++ kwargs := by
      rw [zip_append_of_length_eq target.ids vals (kwargs.map Prod.fst)
        (kwargs.map Prod.snd) hlen, zip_map_fst_snd']
    simp only [h1, hga, hkeys, Option.getD, queryScanSpec_eq]

/-- C2 witness: on a model where the target table exists, the embedded
lookup and the claim's description agree — here on a cache miss that scans
two `B` instances and memoizes the single match. -/
theorem C2_witness :
    selectEndpoint abFull ("A", 0) endA endB [] =
      selectEndpointSpec abFull ("A", 0) endA endB [] ∧
    selectEndpoint abFull ("A", 0) endA endB [] =
      .ok ([("B", 1)], abCached) := by
  constructor
  · exact C2_select_endpoint_refines abFull ("A", 0) endA endB []
      [[("x", .vint 2)], [("x", .vint 1)]] (by decide) (by decide)
  · decide
